import Mathlib

/-!
Shallow embedding of `src/app.py` (a Streamlit chat application around a
hosted generative-model API).  Python strings are modelled as Lean `String`
(a list of unicode code points); Python `bytes` as `List Nat`; the external
collaborators (HTTP fetch, PDF/DOCX parsing libraries, the model client) as
explicit function parameters returning `Except`.  Python string primitives
(`str.split`, `str.strip`, `str.startswith`, `bytes.decode('utf-8')`) are
modelled character-by-character below, following CPython semantics.
-/

namespace AgenticRag

/-! ## Python string primitives, modelled at the character level -/

/-- Model of CPython `str.split(sep)` for a one-character separator:
splits at every occurrence, keeping empty pieces; `"".split(sep) = [""]`. -/
def pySplit (sep : Char) : List Char → List (List Char)
  | [] => [[]]
  | c :: rest =>
    if c = sep then [] :: pySplit sep rest
    else
      match pySplit sep rest with
      | [] => [[c]]
      | h :: t => (c :: h) :: t

/-- Model of CPython `str.split("  ")` (two-space separator): non-overlapping
left-to-right splits, keeping empty pieces. -/
def pySplit2 : List Char → List (List Char)
  | [] => [[]]
  | [c] => [[c]]
  | c :: d :: rest =>
    if c = ' ' ∧ d = ' ' then [] :: pySplit2 rest
    else
      match pySplit2 (d :: rest) with
      | [] => [[c]]
      | h :: t => (c :: h) :: t

/-- Whitespace characters removed by CPython `str.strip()`. -/
def isPySpace (c : Char) : Bool :=
  c = ' ' || c = '\t' || c = '\n' || c = '\x0d' || c = '\x0b' || c = '\x0c'

/-- Model of CPython `str.strip()`: drop leading and trailing whitespace. -/
def pyStrip (l : List Char) : List Char :=
  ((l.dropWhile isPySpace).reverse.dropWhile isPySpace).reverse

/-- Model of CPython `str.startswith(p)`: `p` is an initial segment. -/
def pyStartsWith : List Char → List Char → Bool
  | _, [] => true
  | [], _ :: _ => false
  | c :: cs, p :: ps => c == p && pyStartsWith cs ps

/-! ## UTF-8, modelling CPython `str.encode('utf-8')` / `bytes.decode('utf-8')` -/

/-- UTF-8 encoding of one code point (CPython `str.encode('utf-8')`,
one character). -/
def utf8EncodeChar (c : Char) : List Nat :=
  let n := c.toNat
  if n < 128 then [n]
  else if n < 2048 then [192 + n / 64, 128 + n % 64]
  else if n < 65536 then [224 + n / 4096, 128 + n / 64 % 64, 128 + n % 64]
  else [240 + n / 262144, 128 + n / 4096 % 64, 128 + n / 64 % 64, 128 + n % 64]

/-- UTF-8 encoding of a string. -/
def utf8Encode (s : String) : List Nat :=
  (s.data.map utf8EncodeChar).flatten

/-- Read one UTF-8 continuation byte: its 6 payload bits and the remaining
bytes, or `none` if the next byte is absent or not a continuation byte. -/
def utf8DecodeCont : List Nat → Option (Nat × List Nat)
  | [] => none
  | b :: rest => if 128 ≤ b ∧ b < 192 then some (b - 128, rest) else none

/-- Decode one code point from the front of a byte sequence (strict UTF-8,
as CPython's `bytes.decode('utf-8')`): rejects stray continuation bytes,
overlong encodings, surrogates and out-of-range code points.  Returns the
code point and the remaining bytes. -/
def utf8DecodeChar : List Nat → Option (Nat × List Nat)
  | [] => none
  | b0 :: bs =>
    if b0 < 128 then some (b0, bs)
    else if b0 < 192 then none
    else if b0 < 224 then
      (utf8DecodeCont bs).bind fun p1 =>
        if 128 ≤ (b0 - 192) * 64 + p1.1 then some ((b0 - 192) * 64 + p1.1, p1.2) else none
    else if b0 < 240 then
      (utf8DecodeCont bs).bind fun p1 =>
        (utf8DecodeCont p1.2).bind fun p2 =>
          if 2048 ≤ (b0 - 224) * 4096 + p1.1 * 64 + p2.1 ∧
              ((b0 - 224) * 4096 + p1.1 * 64 + p2.1 < 55296 ∨
                57344 ≤ (b0 - 224) * 4096 + p1.1 * 64 + p2.1) then
            some ((b0 - 224) * 4096 + p1.1 * 64 + p2.1, p2.2)
          else none
    else if b0 < 248 then
      (utf8DecodeCont bs).bind fun p1 =>
        (utf8DecodeCont p1.2).bind fun p2 =>
          (utf8DecodeCont p2.2).bind fun p3 =>
            if 65536 ≤ (b0 - 240) * 262144 + p1.1 * 4096 + p2.1 * 64 + p3.1 ∧
                (b0 - 240) * 262144 + p1.1 * 4096 + p2.1 * 64 + p3.1 < 1114112 then
              some ((b0 - 240) * 262144 + p1.1 * 4096 + p2.1 * 64 + p3.1, p3.2)
            else none
    else none

/-- Decode a whole byte sequence, one code point at a time.  The `fuel`
argument only drives termination: every successful `utf8DecodeChar` step
consumes at least one byte, so with `fuel` set to the byte count (as
`utf8Decode` does) the fuel-exhausted branch is never reached. -/
def utf8DecodeLoop : Nat → List Nat → Option (List Char)
  | _, [] => some []
  | 0, _ :: _ => none
  | fuel + 1, b0 :: bs =>
    (utf8DecodeChar (b0 :: bs)).bind fun p =>
      (utf8DecodeLoop fuel p.2).map (Char.ofNat p.1 :: ·)

/-- Strict UTF-8 decoding of a byte sequence (CPython `bytes.decode('utf-8')`);
`none` models `UnicodeDecodeError`. -/
def utf8Decode (l : List Nat) : Option (List Char) :=
  utf8DecodeLoop l.length l

/-! ## Data model (`src/app.py`) -/

/-- Configuration constants of the agent (`class AgentConfig`). -/
def MAX_HISTORY : Nat := 10

/-- One entry of `st.session_state.chat_history`: the dict built by
`add_to_history` (role, content, context, timestamp). -/
structure Turn where
  role : String
  content : String
  context : String
  timestamp : String
deriving DecidableEq, Repr

/-- An uploaded file handle: its `.name` and its raw byte content. -/
structure UploadedFile where
  name : String
  bytes : List Nat
deriving DecidableEq, Repr

/-- The mutable session state touched by the chat handler. -/
structure SessionState where
  chat_history : List Turn
  temp_files : List UploadedFile
deriving DecidableEq, Repr

/-! ## File processing functions (`src/app.py` lines 81-118) -/

/-- Embedding of `extract_text_from_pdf`: page-level extraction is delegated
to the external `pypdf` library, modelled by the `parse` parameter; page
texts are concatenated each followed by a newline, and any library
exception is rendered as an inline error string. -/
def extract_text_from_pdf (parse : List Nat → Except String (List String))
    (file : List Nat) : String :=
  match parse file with
  | .ok pages => pages.foldl (fun text p => text ++ p ++ "\n") ""
  | .error e => "Error reading PDF: " ++ e

/-- Embedding of `extract_text_from_docx`: paragraph extraction is delegated
to the external `python-docx` library (the `parse` parameter); paragraph
texts are joined by newlines. -/
def extract_text_from_docx (parse : List Nat → Except String (List String))
    (file : List Nat) : String :=
  match parse file with
  | .ok paras => String.intercalate "\n" paras
  | .error e => "Error reading DOCX: " ++ e

/-- Embedding of `extract_text_from_txt`: `file.read().decode('utf-8')`,
with a `UnicodeDecodeError` caught and rendered as an inline error string. -/
def extract_text_from_txt (file : List Nat) : String :=
  match utf8Decode file with
  | some cs => String.mk cs
  | none => "Error reading TXT: invalid UTF-8 byte sequence"

/-- The extension used for dispatch: `uploaded_file.name.split('.')[-1].lower()`.
CPython `split` on a nonempty string never yields an empty list, so the
`[-1]` index is modelled by `getLastD`. -/
def file_type_of (name : String) : List Char :=
  ((pySplit '.' name.data).getLastD []).map Char.toLower

/-- Embedding of `process_uploaded_file`: dispatch on the lower-cased last
extension component; unsupported extensions yield a literal message. -/
def process_uploaded_file (parsePdf parseDocx : List Nat → Except String (List String))
    (f : UploadedFile) : String :=
  let file_type := file_type_of f.name
  if file_type = "pdf".data then extract_text_from_pdf parsePdf f.bytes
  else if file_type = "docx".data then extract_text_from_docx parseDocx f.bytes
  else if file_type = "txt".data then extract_text_from_txt f.bytes
  else "Unsupported file format. Please upload PDF, DOCX, or TXT files."

/-! ## Web scraper (`src/app.py` lines 120-151) -/

/-- A parsed HTML node, as exposed by BeautifulSoup: a text node or an
element with a tag name and children. -/
inductive Html where
  | text (s : String)
  | elem (tag : String) (children : List Html)
deriving Repr

/-- Embedding of the `soup(["script", "style"]) ... decompose()` loop:
every `script`/`style` element (however deeply nested) is removed from
the tree together with its entire subtree. -/
def scrubList : List Html → List Html
  | [] => []
  | .text s :: rest => .text s :: scrubList rest
  | .elem t ch :: rest =>
    if t = "script" ∨ t = "style" then scrubList rest
    else .elem t (scrubList ch) :: scrubList rest

/-- Embedding of BeautifulSoup `soup.get_text()`: concatenation of the text
nodes of the (already pruned) tree, in document order. -/
def getTextL : List Html → List Char
  | [] => []
  | .text s :: rest => s.data ++ getTextL rest
  | .elem _ ch :: rest => getTextL ch ++ getTextL rest

/-- The text of a document outside any `script`/`style` element, defined
directly by skipping those subtrees during traversal.  Used to state that
pruning removes exactly the script/style content. -/
def visibleTextL : List Html → List Char
  | [] => []
  | .text s :: rest => s.data ++ visibleTextL rest
  | .elem t ch :: rest =>
    if t = "script" ∨ t = "style" then visibleTextL rest
    else visibleTextL ch ++ visibleTextL rest

/-- Embedding of the clean-up in `scrape_website`: split into lines, strip
each line, re-split each line on double spaces, strip each phrase, drop
empty phrases, and re-join with single newlines. -/
def clean_text (l : List Char) : List Char :=
  let lines := (pySplit '\n' l).map pyStrip
  let chunks := (lines.map (fun ln => (pySplit2 ln).map pyStrip)).flatten
  List.intercalate ['\n'] (chunks.filter (fun c => c ≠ []))

/-- Embedding of `scrape_website`: the HTTP GET + HTML parse is delegated to
the external `requests`/BeautifulSoup libraries, modelled by the `fetch`
parameter (`.error` covers network errors, timeouts and non-2xx statuses,
whose exceptions are caught and rendered inline); on success the document
is pruned, textified, cleaned and truncated to 5000 characters. -/
def scrape_website (fetch : String → Except String (List Html)) (url : String) : String :=
  match fetch url with
  | .error e => "Error scraping website: " ++ e
  | .ok doc =>
    let text := getTextL (scrubList doc)
    let cleaned := clean_text text
    if cleaned.length > 5000 then String.mk (cleaned.take 5000) else String.mk cleaned

/-- Embedding of `is_url`: `text.startswith(('http://', 'https://', 'www.'))`. -/
def is_url (text : String) : Bool :=
  pyStartsWith text.data "http://".data ||
  pyStartsWith text.data "https://".data ||
  pyStartsWith text.data "www.".data

/-! ## Chat functions (`src/app.py` lines 240-283) -/

/-- Embedding of `get_context`: empty history yields the empty string;
otherwise a header line followed by `"{role}: {content}\n"` for each of
the last 10 turns, accumulated left to right as in the Python loop. -/
def get_context (chat_history : List Turn) : String :=
  if chat_history = [] then ""
  else
    (chat_history.drop (chat_history.length - 10)).foldl
      (fun context m => context ++ (m.role ++ ": " ++ m.content ++ "\n"))
      "Previous conversation:\n"

/-- The prompt constructed inside `get_agent_response` before the
`generate_content` call: history context, optional additional context,
then the `User:`/`Assistant:` framing — or the bare message when the
assembled context is empty. -/
def build_prompt (chat_history : List Turn) (user_message additional_context : String) :
    String :=
  let context := get_context chat_history
  let context :=
    if additional_context ≠ "" then
      context ++ "\n\nAdditional Context:\n" ++ additional_context ++ "\n"
    else context
  if context ≠ "" then context ++ "\nUser: " ++ user_message ++ "\nAssistant:"
  else user_message

/-- Embedding of `get_agent_response`: the model client call (which may
raise) is the `model` parameter; an exception is caught and rendered as
`"❌ Error: {message}"`. -/
def get_agent_response (model : String → Except String String)
    (chat_history : List Turn) (user_message additional_context : String) : String :=
  match model (build_prompt chat_history user_message additional_context) with
  | .ok r => r
  | .error e => "❌ Error: " ++ e

/-- Embedding of `add_to_history`: append the new turn, then keep only the
last `MAX_HISTORY * 2` entries (`history[-MAX_HISTORY * 2:]`). -/
def add_to_history (chat_history : List Turn)
    (role content context timestamp : String) : List Turn :=
  let h := chat_history ++ [⟨role, content, context, timestamp⟩]
  if h.length > MAX_HISTORY * 2 then h.drop (h.length - MAX_HISTORY * 2) else h

/-! ## The `if user_input:` handler (`src/app.py` lines 347-388) -/

/-- The `additional_context` string assembled by the handler: scraped
website content when the stripped input passes the URL test, then one
block per pending uploaded file, accumulated in upload order. -/
def handler_additional_context (fetch : String → Except String (List Html))
    (parsePdf parseDocx : List Nat → Except String (List String))
    (st : SessionState) (user_input : String) : String :=
  let ac :=
    if is_url (String.mk (pyStrip user_input.data)) then
      "\n\nWebsite Content from " ++ user_input ++ ":\n" ++
        scrape_website fetch (String.mk (pyStrip user_input.data))
    else ""
  st.temp_files.foldl
    (fun acc f =>
      acc ++ "\n\nFile: " ++ f.name ++ "\n" ++ process_uploaded_file parsePdf parseDocx f ++ "\n")
    ac

/-- The history as it stands when `get_agent_response` is called: the user
turn has already been appended by `add_to_history("User", ...)`. -/
def handler_history_before_model (fetch : String → Except String (List Html))
    (parsePdf parseDocx : List Nat → Except String (List String))
    (st : SessionState) (user_input now1 : String) : List Turn :=
  add_to_history st.chat_history "User" user_input
    (handler_additional_context fetch parsePdf parseDocx st user_input) now1

/-- The prompt string passed to the model client's `generate_content` call
for one submitted message. -/
def handler_prompt (fetch : String → Except String (List Html))
    (parsePdf parseDocx : List Nat → Except String (List String))
    (st : SessionState) (user_input now1 : String) : String :=
  build_prompt (handler_history_before_model fetch parsePdf parseDocx st user_input now1)
    user_input (handler_additional_context fetch parsePdf parseDocx st user_input)

/-- Embedding of the whole `if user_input:` block: assemble additional
context, append the user turn, call the model, append the assistant turn,
clear the pending files.  `now1`/`now2` are the two `datetime.now()`
timestamps. -/
def handle_user_input (model : String → Except String String)
    (fetch : String → Except String (List Html))
    (parsePdf parseDocx : List Nat → Except String (List String))
    (st : SessionState) (user_input now1 now2 : String) : SessionState :=
  let ac := handler_additional_context fetch parsePdf parseDocx st user_input
  let h1 := add_to_history st.chat_history "User" user_input ac now1
  let response := get_agent_response model h1 user_input ac
  { chat_history := add_to_history h1 "Assistant" response "" now2
    temp_files := [] }

/-! ## Auxiliary definitions for the statements below -/

/-- Iterated appends through `add_to_history` (each element of `ts` is one
append, carrying its own role/content/context/timestamp). -/
def foldAdd (h : List Turn) (ts : List Turn) : List Turn :=
  ts.foldl (fun acc t => add_to_history acc t.role t.content t.context t.timestamp) h

/-- A concrete turn used to instantiate hypothesis-bearing theorems. -/
def sampleTurn : Turn := ⟨"User", "Hi", "", "t0"⟩

/-- A concrete page: a `div` holding visible text with a `script` and a
`style` element nested inside it. -/
def samplePage : List Html :=
  [.elem "div" [.text "Hello  world ", .elem "script" [.text "SECRET"],
    .elem "style" [.text "CSS"], .text "\n  tail "]]

end AgenticRag

/-! ## Theorems -/

namespace AgenticRag

theorem pyStartsWith_iff (l p : List Char) : pyStartsWith l p = true ↔ ∃ r, l = p ++ r := by
  induction p generalizing l with
  | nil => simp [pyStartsWith]
  | cons q qs ih =>
    cases l with
    | nil => simp [pyStartsWith]
    | cons c cs =>
      simp only [pyStartsWith, Bool.and_eq_true, beq_iff_eq, ih, List.cons_append,
        List.cons.injEq]
      constructor
      · rintro ⟨rfl, r, rfl⟩; exact ⟨r, rfl, rfl⟩
      · rintro ⟨r, rfl, rfl⟩; exact ⟨rfl, r, rfl⟩

theorem pySplit_no_sep (sep : Char) (l : List Char) (h : ∀ c ∈ l, c ≠ sep) :
    pySplit sep l = [l] := by
  induction l with
  | nil => rfl
  | cons c cs ih =>
    have hc : c ≠ sep := h c (by simp)
    rw [pySplit, if_neg hc, ih (fun x hx => h x (by simp [hx]))]

/-- Claim C8: `is_url` returns true for a string iff it starts with `http://`, `https://` or `www.` (a pure character-level initial-segment test), and in particular holds on `https://example.com` and `www.example.com` but not on `hello world`. -/
theorem is_url_spec :
    (∀ s : String, is_url s = true ↔
      ((∃ r, s.data = ("http://").data ++ r) ∨ (∃ r, s.data = ("https://").data ++ r) ∨
        (∃ r, s.data = ("www.").data ++ r))) ∧
    is_url "https://example.com" = true ∧ is_url "www.example.com" = true ∧
    is_url "hello world" = false := by
  refine ⟨fun s => ?_, by decide, by decide, by decide⟩
  simp [is_url, pyStartsWith_iff, or_assoc]

/-- Claim C6: for every uploaded file whose lower-cased last extension component is none of `pdf`, `docx`, `txt`, `process_uploaded_file` returns the literal unsupported-format message (it is a total function, so it never raises), for any choice of the external PDF/DOCX parsers. -/
theorem process_unsupported (parsePdf parseDocx : List Nat → Except String (List String))
    (f : UploadedFile)
    (h : file_type_of f.name ∉ [("pdf").data, ("docx").data, ("txt").data]) :
    process_uploaded_file parsePdf parseDocx f =
      "Unsupported file format. Please upload PDF, DOCX, or TXT files." := by
  simp only [List.mem_cons, List.not_mem_nil, or_false, not_or] at h
  obtain ⟨h1, h2, h3⟩ := h
  rw [process_uploaded_file]
  simp only [h1, h2, h3, if_false, ite_false]

/-- Witness for claim C6 at the concrete filename `data.csv`. -/
theorem process_unsupported_witness :
    file_type_of "data.csv" ∉ [("pdf").data, ("docx").data, ("txt").data] ∧
    process_uploaded_file (fun _ => .error "e") (fun _ => .error "e") ⟨"data.csv", []⟩ =
      "Unsupported file format. Please upload PDF, DOCX, or TXT files." :=
  ⟨by decide, process_unsupported _ _ _ (by decide)⟩

/-- Claim C10: the dispatch extension is the substring after the last dot of the filename, lower-cased, so a dot-free filename serves (lower-cased) as its own extension; files literally named `pdf`, `docx`, `txt` are routed to the corresponding extractor rather than rejected. -/
theorem file_type_dispatch :
    (∀ name : String, (∀ c ∈ name.data, c ≠ '.') →
        file_type_of name = name.data.map Char.toLower) ∧
    (∀ (parsePdf parseDocx : List Nat → Except String (List String)) (bytes : List Nat),
        process_uploaded_file parsePdf parseDocx ⟨"pdf", bytes⟩ =
          extract_text_from_pdf parsePdf bytes ∧
        process_uploaded_file parsePdf parseDocx ⟨"docx", bytes⟩ =
          extract_text_from_docx parseDocx bytes ∧
        process_uploaded_file parsePdf parseDocx ⟨"txt", bytes⟩ =
          extract_text_from_txt bytes) := by
  constructor
  · intro name h
    rw [file_type_of, pySplit_no_sep '.' name.data h]
    rfl
  · intro parsePdf parseDocx bytes
    refine ⟨?_, ?_, ?_⟩ <;> rfl

/-- Witness for claim C10 at the dot-free filename `myfile` and a file literally named `txt`. -/
theorem file_type_dispatch_witness :
    (∀ c ∈ ("myfile").data, c ≠ '.') ∧
    file_type_of "myfile" = ("myfile").data.map Char.toLower ∧
    process_uploaded_file (fun _ => .error "e") (fun _ => .error "e") ⟨"txt", [104, 105]⟩ =
      extract_text_from_txt [104, 105] :=
  ⟨by decide, file_type_dispatch.1 "myfile" (by decide),
    (file_type_dispatch.2 (fun _ => .error "e") (fun _ => .error "e") [104, 105]).2.2⟩

theorem add_to_history_eq (h : List Turn) (r c x t : String) :
    add_to_history h r c x t =
      (h ++ [Turn.mk r c x t]).drop ((h ++ [Turn.mk r c x t]).length - MAX_HISTORY * 2) := by
  rw [add_to_history]
  split
  · rfl
  · next hle =>
    have h0 : (h ++ [Turn.mk r c x t]).length - MAX_HISTORY * 2 = 0 := by
      simp only [List.length_append, List.length_cons, List.length_nil, Nat.not_lt,
        gt_iff_lt] at hle ⊢
      omega
    rw [h0, List.drop_zero]

theorem add_to_history_length_le (h : List Turn) (r c x t : String) :
    (add_to_history h r c x t).length ≤ MAX_HISTORY * 2 := by
  rw [add_to_history]
  split
  · next hgt => simp only [List.length_drop]; omega
  · next hle => omega

theorem foldAdd_length_le (ts : List Turn) (h : List Turn)
    (hh : h.length ≤ MAX_HISTORY * 2) : (foldAdd h ts).length ≤ MAX_HISTORY * 2 := by
  induction ts generalizing h with
  | nil => exact hh
  | cons t ts ih => exact ih _ (add_to_history_length_le ..)

theorem drop_cap {α : Type} (l m : List α) (n : Nat) :
    (l.drop (l.length - n) ++ m).drop ((l.drop (l.length - n) ++ m).length - n)
      = (l ++ m).drop ((l ++ m).length - n) := by
  rcases Nat.le_total l.length n with h | h
  · have h0 : l.length - n = 0 := by omega
    simp [h0]
  · have hlen : (l.drop (l.length - n)).length = n := by simp; omega
    have h1 : (l.drop (l.length - n) ++ m).length - n = m.length := by
      simp [hlen]
    have h2 : (l ++ m).length - n = (l.length - n) + m.length := by simp; omega
    rw [h1, h2, ← List.drop_drop, List.drop_append_of_le_length (Nat.sub_le _ _)]

/-- Claim C2: starting from any history of length at most `2 * MAX_HISTORY`, every sequence of appends through `add_to_history` keeps the length at or below `2 * MAX_HISTORY` after each step, and the final history is exactly the most recent `2 * MAX_HISTORY` entries of the full append sequence in their original order (FIFO eviction of the oldest entries). -/
theorem history_cap_fifo (h0 ts : List Turn) (hh : h0.length ≤ MAX_HISTORY * 2) :
    (∀ l1 l2, ts = l1 ++ l2 → (foldAdd h0 l1).length ≤ MAX_HISTORY * 2) ∧
    foldAdd h0 ts = (h0 ++ ts).drop ((h0 ++ ts).length - MAX_HISTORY * 2) := by
  constructor
  · intro l1 l2 _
    exact foldAdd_length_le l1 h0 hh
  · induction ts generalizing h0 with
    | nil =>
      have h0z : h0.length - MAX_HISTORY * 2 = 0 := by omega
      simp [foldAdd, h0z]
    | cons t ts ih =>
      have hstep : foldAdd h0 (t :: ts) =
          foldAdd (add_to_history h0 t.role t.content t.context t.timestamp) ts := rfl
      rw [hstep, ih _ (add_to_history_length_le ..), add_to_history_eq]
      have heta : Turn.mk t.role t.content t.context t.timestamp = t := rfl
      rw [heta, drop_cap]
      simp

/-- Witness for claim C2: 21 appends to an empty history keep the cap and drop exactly the oldest entry. -/
theorem history_cap_fifo_witness :
    ([] : List Turn).length ≤ MAX_HISTORY * 2 ∧
    (foldAdd [] (List.replicate 21 (Turn.mk "User" "hi" "" "00"))).length ≤ MAX_HISTORY * 2 ∧
    foldAdd [] (List.replicate 21 (Turn.mk "User" "hi" "" "00")) =
      List.replicate 20 (Turn.mk "User" "hi" "" "00") := by
  have h := history_cap_fifo [] (List.replicate 21 (Turn.mk "User" "hi" "" "00")) (by decide)
  refine ⟨by decide, ?_, ?_⟩
  · exact h.1 (List.replicate 21 (Turn.mk "User" "hi" "" "00")) [] (by simp)
  · rw [h.2]; decide

theorem foldl_append_data {α : Type} (f : α → String) (l : List α) (init : String) :
    (l.foldl (fun a x => a ++ f x) init).data
      = init.data ++ (l.map (fun x => (f x).data)).flatten := by
  induction l generalizing init with
  | nil => simp
  | cons x xs ih => simp [ih, String.data_append, List.append_assoc]

theorem pySplit_sep_append (sep : Char) (a rest : List Char) (h : ∀ c ∈ a, c ≠ sep) :
    pySplit sep (a ++ sep :: rest) = a :: pySplit sep rest := by
  induction a with
  | nil => simp [pySplit]
  | cons x xs ih =>
    have hx : x ≠ sep := h x (by simp)
    rw [List.cons_append, pySplit, if_neg hx, ih (fun c hc => h c (by simp [hc]))]

theorem pySplit_flatten (sep : Char) (L : List (List Char))
    (h : ∀ p ∈ L, ∀ c ∈ p, c ≠ sep) :
    pySplit sep ((L.map (fun p => p ++ [sep])).flatten) = L ++ [[]] := by
  induction L with
  | nil => rfl
  | cons p L ih =>
    simp only [List.map_cons, List.flatten_cons, List.append_assoc, List.singleton_append]
    rw [pySplit_sep_append sep p _ (h p (by simp)),
      ih (fun q hq c hc => h q (by simp [hq]) c hc)]
    rfl

/-- Claim C3: `get_context` returns the empty string on an empty history; on a non-empty history it returns the header `Previous conversation:\n` followed by one `{role}: {content}` line per turn for exactly the last `min(len(history), 10)` turns in chronological order (the per-turn line count reads the rendered turns as single lines, i.e. roles and contents without embedded newlines). -/
theorem get_context_spec :
    get_context [] = "" ∧
    ∀ h : List Turn, h ≠ [] →
      ∃ rest : List Char,
        (get_context h).data = ("Previous conversation:\n").data ++ rest ∧
        ((∀ m ∈ h.drop (h.length - 10), '\n' ∉ m.role.data ∧ '\n' ∉ m.content.data) →
          pySplit '\n' rest =
            (h.drop (h.length - 10)).map
              (fun m => m.role.data ++ (": ").data ++ m.content.data) ++ [[]] ∧
          ((h.drop (h.length - 10)).map
              (fun m => m.role.data ++ (": ").data ++ m.content.data)).length
            = min h.length 10) := by
  refine ⟨rfl, fun h hne => ?_⟩
  rw [get_context, if_neg hne]
  refine ⟨(((h.drop (h.length - 10)).map
      (fun m => m.role.data ++ (": ").data ++ m.content.data)).map
      (fun p => p ++ ['\n'])).flatten, ?_, ?_⟩
  · rw [foldl_append_data (fun m => m.role ++ ": " ++ m.content ++ "\n") (h.drop (h.length - 10))]
    have hnl : ("\n").data = ['\n'] := rfl
    simp [List.map_map, String.data_append, Function.comp, hnl, List.append_assoc]
    congr 1
    congr 1
    apply List.map_congr_left
    intro x _
    simp [List.append_assoc]
  · intro hclean
    constructor
    · apply pySplit_flatten
      intro p hp c hc
      simp only [List.mem_map] at hp
      obtain ⟨m, hm, rfl⟩ := hp
      simp only [List.mem_append] at hc
      rintro rfl
      rcases hc with (hc | hc) | hc
      · exact (hclean m hm).1 hc
      · exact absurd hc (by decide)
      · exact (hclean m hm).2 hc
    · simp only [List.length_map, List.length_drop]; omega

/-- Witness for claim C3 at a concrete one-turn history. -/
theorem get_context_spec_witness :
    ([sampleTurn] : List Turn) ≠ [] ∧
    (∃ rest : List Char,
      (get_context [sampleTurn]).data = ("Previous conversation:\n").data ++ rest ∧
      ((∀ m ∈ ([sampleTurn] : List Turn).drop (([sampleTurn] : List Turn).length - 10),
          '\n' ∉ m.role.data ∧ '\n' ∉ m.content.data) →
        pySplit '\n' rest =
          (([sampleTurn] : List Turn).drop (([sampleTurn] : List Turn).length - 10)).map
            (fun m => m.role.data ++ (": ").data ++ m.content.data) ++ [[]] ∧
        ((([sampleTurn] : List Turn).drop (([sampleTurn] : List Turn).length - 10)).map
            (fun m => m.role.data ++ (": ").data ++ m.content.data)).length
          = min ([sampleTurn] : List Turn).length 10)) :=
  ⟨by decide, get_context_spec.2 [sampleTurn] (by decide)⟩

/-- Counterexample to claim C1: with empty history, no pending files and the non-URL input `Hi`, the prompt handed to the model is not the bare string `Hi`. -/
theorem prompt_hi_counterexample :
    handler_prompt (fun _ => Except.error "net") (fun _ => Except.error "pdf")
        (fun _ => Except.error "docx") ⟨[], []⟩ "Hi" "00:00:00" ≠ "Hi" := by
  decide

/-- Claim C1 (amended): with empty history, no pending files and the non-URL input `Hi`, the prompt handed to the model is `Previous conversation:\nUser: Hi\n\nUser: Hi\nAssistant:` — the user turn is appended to history before the context is built, so even an empty prior history produces a header and the message appears twice. -/
theorem prompt_hi_amended :
    ∀ (fetch : String → Except String (List Html))
      (parsePdf parseDocx : List Nat → Except String (List String)) (now1 : String),
      handler_prompt fetch parsePdf parseDocx ⟨[], []⟩ "Hi" now1 =
        "Previous conversation:\nUser: Hi\n\nUser: Hi\nAssistant:" := by
  intro fetch parsePdf parseDocx now1
  rfl

theorem get_agent_response_error (model : String → Except String String)
    (h : List Turn) (ui ac e : String)
    (hf : model (build_prompt h ui ac) = Except.error e) :
    get_agent_response model h ui ac = "❌ Error: " ++ e := by
  simp only [get_agent_response, hf]

/-- Claim C7: when the model client call fails, the controller produces the literal reply `\u274c Error: {message}` without retrying, and the resulting session state is exactly the one a successful call returning that same text would produce — the error text is appended to history as a normal assistant turn. -/
theorem model_error_as_normal_turn
    (model : String → Except String String)
    (fetch : String → Except String (List Html))
    (parsePdf parseDocx : List Nat → Except String (List String))
    (st : SessionState) (user_input now1 now2 e : String)
    (hfail : model (handler_prompt fetch parsePdf parseDocx st user_input now1) =
      Except.error e) :
    get_agent_response model
        (handler_history_before_model fetch parsePdf parseDocx st user_input now1)
        user_input (handler_additional_context fetch parsePdf parseDocx st user_input) =
      "❌ Error: " ++ e ∧
    handle_user_input model fetch parsePdf parseDocx st user_input now1 now2 =
      handle_user_input (fun _ => Except.ok ("❌ Error: " ++ e)) fetch parsePdf parseDocx
        st user_input now1 now2 := by
  rw [handler_prompt] at hfail
  refine ⟨get_agent_response_error _ _ _ _ _ hfail, ?_⟩
  have hfail2 := hfail
  simp only [handler_history_before_model] at hfail2
  simp only [handle_user_input]
  rw [get_agent_response_error _ _ _ _ _ hfail2]
  rfl

/-- Witness for claim C7 with a model that always raises `boom`. -/
theorem model_error_as_normal_turn_witness :
    ((fun _ : String => (Except.error "boom" : Except String String))
        (handler_prompt (fun _ => Except.error "net") (fun _ => Except.error "pdf")
          (fun _ => Except.error "docx") ⟨[], []⟩ "Hi" "t1") =
      Except.error "boom") ∧
    get_agent_response (fun _ => Except.error "boom")
        (handler_history_before_model (fun _ => Except.error "net")
          (fun _ => Except.error "pdf") (fun _ => Except.error "docx") ⟨[], []⟩ "Hi" "t1")
        "Hi"
        (handler_additional_context (fun _ => Except.error "net")
          (fun _ => Except.error "pdf") (fun _ => Except.error "docx") ⟨[], []⟩ "Hi") =
      "❌ Error: " ++ "boom" ∧
    handle_user_input (fun _ => Except.error "boom") (fun _ => Except.error "net")
        (fun _ => Except.error "pdf") (fun _ => Except.error "docx") ⟨[], []⟩ "Hi" "t1" "t2" =
      handle_user_input (fun _ => Except.ok ("❌ Error: " ++ "boom"))
        (fun _ => Except.error "net") (fun _ => Except.error "pdf")
        (fun _ => Except.error "docx") ⟨[], []⟩ "Hi" "t1" "t2" := by
  refine ⟨rfl, ?_⟩
  exact model_error_as_normal_turn (fun _ => Except.error "boom") (fun _ => Except.error "net")
    (fun _ => Except.error "pdf") (fun _ => Except.error "docx") ⟨[], []⟩ "Hi" "t1" "t2" "boom" rfl

theorem drop_last_window {α : Type} (g : List α) (p q : Nat) (hpq : q ≤ p) :
    (g.drop (g.length - p)).drop ((g.drop (g.length - p)).length - q)
      = g.drop (g.length - q) := by
  rw [List.length_drop, List.drop_drop]
  congr 1
  omega

theorem drop_append_last {α : Type} (l : List α) (a : α) (n : Nat) :
    (l ++ [a]).drop ((l ++ [a]).length - (n + 1)) = l.drop (l.length - n) ++ [a] := by
  have hle : (l ++ [a]).length - (n + 1) ≤ l.length := by simp
  rw [List.drop_append_of_le_length hle]
  congr 2
  simp only [List.length_append, List.length_cons, List.length_nil]
  omega

/-- Claim C9: for every submitted message, the user turn is appended to history before the context is built, so the prompt always starts with the `Previous conversation:` header, contains the just-submitted message as the final `User: {content}` line of the history block, and repeats it in the trailing `User: {message}\nAssistant:` framing — even when the prior history was empty. -/
theorem prompt_echoes_history
    (fetch : String → Except String (List Html))
    (parsePdf parseDocx : List Nat → Except String (List String))
    (st : SessionState) (m now1 : String) :
    ∃ mid : List Char,
      (handler_prompt fetch parsePdf parseDocx st m now1).data =
        ("Previous conversation:\n").data ++ mid ++ ("User: ").data ++ m.data ++ ("\n").data ++
          (if handler_additional_context fetch parsePdf parseDocx st m = "" then []
            else ("\n\nAdditional Context:\n").data ++
              (handler_additional_context fetch parsePdf parseDocx st m).data ++ ("\n").data) ++
          ("\nUser: ").data ++ m.data ++ ("\nAssistant:").data := by
  set ac := handler_additional_context fetch parsePdf parseDocx st m with hac
  set h0 := st.chat_history with hh0
  set u : Turn := ⟨"User", m, ac, now1⟩ with hu
  have hh1 : handler_history_before_model fetch parsePdf parseDocx st m now1 =
      (h0 ++ [u]).drop ((h0 ++ [u]).length - MAX_HISTORY * 2) := by
    rw [handler_history_before_model, add_to_history_eq]
  set h1 := handler_history_before_model fetch parsePdf parseDocx st m now1 with hh1d
  have hne : h1 ≠ [] := by
    have : h1.length = (h0 ++ [u]).length - ((h0 ++ [u]).length - MAX_HISTORY * 2) := by
      rw [hh1, List.length_drop]
    intro hcon
    rw [hcon] at this
    simp only [List.length_nil, List.length_append, List.length_cons, List.length_nil] at this
    have hM : MAX_HISTORY = 10 := rfl
    omega
  have hlast : h1.drop (h1.length - 10) = h0.drop (h0.length - 9) ++ [u] := by
    rw [hh1, drop_last_window _ (MAX_HISTORY * 2) 10 (by norm_num [MAX_HISTORY])]
    exact drop_append_last h0 u 9
  have hctx : (get_context h1).data =
      ("Previous conversation:\n").data ++
        ((h0.drop (h0.length - 9)).map
          (fun t => (t.role ++ ": " ++ t.content ++ "\n").data)).flatten ++
        ("User: ").data ++ m.data ++ ("\n").data := by
    rw [get_context, if_neg hne, hlast,
      foldl_append_data (fun t : Turn => t.role ++ ": " ++ t.content ++ "\n")]
    simp only [List.map_append, List.map_cons, List.map_nil, List.flatten_append,
      List.flatten_cons, List.flatten_nil, List.append_nil, hu, String.data_append]
    have h1' : ("User").data ++ (": ").data = ("User: ").data := rfl
    simp only [List.append_assoc, ← h1']
    rfl
  have hctxne : get_context h1 ≠ "" := by
    intro hcon
    rw [hcon] at hctx
    simp at hctx
  refine ⟨((h0.drop (h0.length - 9)).map
      (fun t => (t.role ++ ": " ++ t.content ++ "\n").data)).flatten, ?_⟩
  rw [handler_prompt, build_prompt]
  by_cases hac0 : ac = ""
  · simp only [← hh1d, ← hac, hac0, ne_eq, not_true_eq_false, if_false, ite_false,
      if_neg (fun hcc => hctxne hcc), if_pos hctxne]
    simp only [String.data_append, hctx, List.append_assoc, List.append_nil]
    rfl
  · simp only [← hh1d, ← hac, ne_eq, hac0, not_false_eq_true, if_true, ite_true]
    have hctxne2 : get_context h1 ++ "\n\nAdditional Context:\n" ++ ac ++ "\n" ≠ "" := by
      intro hcon
      have := congrArg String.data hcon
      simp [String.data_append, hctx] at this
    rw [if_pos hctxne2]
    simp only [String.data_append, hctx, List.append_assoc]
    simp [hac0]

theorem getTextL_scrubList : ∀ l : List Html, getTextL (scrubList l) = visibleTextL l
  | [] => by rw [scrubList, getTextL, visibleTextL]
  | .text s :: rest => by
    rw [scrubList, getTextL, visibleTextL, getTextL_scrubList rest]
  | .elem t ch :: rest => by
    by_cases h : t = "script" ∨ t = "style"
    · rw [scrubList, if_pos h, visibleTextL, if_pos h, getTextL_scrubList rest]
    · rw [scrubList, if_neg h, getTextL, visibleTextL, if_neg h,
        getTextL_scrubList ch, getTextL_scrubList rest]

/-- Claim C4: for every successfully fetched page, the scraper output has at most 5000 characters, and it is computed from the visible text only — the text of `script`/`style` elements, however deeply nested, is pruned before extraction and never contributes to the output. -/
theorem scrape_website_spec (fetch : String → Except String (List Html))
    (url : String) (doc : List Html) (hok : fetch url = Except.ok doc) :
    (scrape_website fetch url).length ≤ 5000 ∧
    scrape_website fetch url =
      (if (clean_text (visibleTextL doc)).length > 5000
        then String.mk ((clean_text (visibleTextL doc)).take 5000)
        else String.mk (clean_text (visibleTextL doc))) := by
  have heq : scrape_website fetch url =
      (if (clean_text (visibleTextL doc)).length > 5000
        then String.mk ((clean_text (visibleTextL doc)).take 5000)
        else String.mk (clean_text (visibleTextL doc))) := by
    rw [scrape_website, hok]
    show (if (clean_text (getTextL (scrubList doc))).length > 5000
        then String.mk ((clean_text (getTextL (scrubList doc))).take 5000)
        else String.mk (clean_text (getTextL (scrubList doc)))) = _
    rw [getTextL_scrubList]
  refine ⟨?_, heq⟩
  rw [heq]
  split
  · next h => simp only [String.length_mk, List.length_take]; omega
  · next h => simp only [String.length_mk]; omega

/-- Witness for claim C4 at a concrete page nesting `script` and `style` inside a visible `div`. -/
theorem scrape_website_spec_witness :
    ((fun _ : String => (Except.ok samplePage : Except String (List Html))) "http://x" =
      Except.ok samplePage) ∧
    (scrape_website (fun _ => Except.ok samplePage) "http://x").length ≤ 5000 ∧
    scrape_website (fun _ => Except.ok samplePage) "http://x" =
      (if (clean_text (visibleTextL samplePage)).length > 5000
        then String.mk ((clean_text (visibleTextL samplePage)).take 5000)
        else String.mk (clean_text (visibleTextL samplePage))) :=
  ⟨rfl, (scrape_website_spec (fun _ => Except.ok samplePage) "http://x" samplePage rfl).1,
    (scrape_website_spec (fun _ => Except.ok samplePage) "http://x" samplePage rfl).2⟩

set_option maxRecDepth 4000

theorem utf8DecodeCont_byte (k : Nat) (rest : List Nat) (hk : k < 64) :
    utf8DecodeCont ((128 + k) :: rest) = some (k, rest) := by
  rw [utf8DecodeCont, if_pos (by omega)]
  congr 2
  omega

theorem utf8DecodeChar_encodeChar (c : Char) (bs : List Nat) :
    utf8DecodeChar (utf8EncodeChar c ++ bs) = some (c.toNat, bs) := by
  have hv : c.toNat < 55296 ∨ (57343 < c.toNat ∧ c.toNat < 1114112) := c.valid
  rcases Nat.lt_or_ge c.toNat 128 with h1 | h1
  · have he : utf8EncodeChar c = [c.toNat] := by
      simp only [utf8EncodeChar]
      rw [if_pos h1]
    rw [he, List.singleton_append, utf8DecodeChar, if_pos h1]
  · rcases Nat.lt_or_ge c.toNat 2048 with h2 | h2
    · have he : utf8EncodeChar c = [192 + c.toNat / 64, 128 + c.toNat % 64] := by
        simp only [utf8EncodeChar]
        rw [if_neg (by omega), if_pos h2]
      rw [he]
      simp only [List.cons_append, List.nil_append, utf8DecodeChar]
      rw [if_neg (by omega), if_neg (by omega), if_pos (by omega),
        utf8DecodeCont_byte _ _ (by omega)]
      simp only [Option.some_bind]
      rw [if_pos (by omega)]
      congr 2
      omega
    · rcases Nat.lt_or_ge c.toNat 65536 with h3 | h3
      · have he : utf8EncodeChar c =
            [224 + c.toNat / 4096, 128 + c.toNat / 64 % 64, 128 + c.toNat % 64] := by
          simp only [utf8EncodeChar]
          rw [if_neg (by omega), if_neg (by omega), if_pos h3]
        rw [he]
        simp only [List.cons_append, List.nil_append, utf8DecodeChar]
        rw [if_neg (by omega), if_neg (by omega), if_neg (by omega), if_pos (by omega),
          utf8DecodeCont_byte _ _ (by omega)]
        simp only [Option.some_bind]
        rw [utf8DecodeCont_byte _ _ (by omega)]
        simp only [Option.some_bind]
        rw [if_pos (by omega)]
        congr 2
        omega
      · have he : utf8EncodeChar c =
            [240 + c.toNat / 262144, 128 + c.toNat / 4096 % 64,
              128 + c.toNat / 64 % 64, 128 + c.toNat % 64] := by
          simp only [utf8EncodeChar]
          rw [if_neg (by omega), if_neg (by omega), if_neg (by omega)]
        rw [he]
        simp only [List.cons_append, List.nil_append, utf8DecodeChar]
        rw [if_neg (by omega), if_neg (by omega), if_neg (by omega), if_neg (by omega),
          if_pos (by omega), utf8DecodeCont_byte _ _ (by omega)]
        simp only [Option.some_bind]
        rw [utf8DecodeCont_byte _ _ (by omega)]
        simp only [Option.some_bind]
        rw [utf8DecodeCont_byte _ _ (by omega)]
        simp only [Option.some_bind]
        rw [if_pos (by omega)]
        congr 2
        omega

theorem utf8EncodeChar_ne_nil (c : Char) : utf8EncodeChar c ≠ [] := by
  simp only [utf8EncodeChar]
  split_ifs <;> simp

theorem length_le_encode_length (l : List Char) :
    l.length ≤ ((l.map utf8EncodeChar).flatten).length := by
  induction l with
  | nil => simp
  | cons c cs ih =>
    have h1 : utf8EncodeChar c ≠ [] := utf8EncodeChar_ne_nil c
    have h2 : 0 < (utf8EncodeChar c).length := List.length_pos.2 h1
    simp only [List.map_cons, List.flatten_cons, List.length_append, List.length_cons]
    omega

theorem utf8DecodeLoop_encode (l : List Char) (fuel : Nat) (bs : List Nat) :
    utf8DecodeLoop (fuel + l.length) ((l.map utf8EncodeChar).flatten ++ bs)
      = (utf8DecodeLoop fuel bs).map (fun x => l ++ x) := by
  induction l with
  | nil =>
    simp only [List.length_nil, Nat.add_zero, List.map_nil, List.flatten_nil,
      List.nil_append]
    cases utf8DecodeLoop fuel bs <;> simp
  | cons c cs ih =>
    obtain ⟨b, tb, hb⟩ : ∃ b tb, utf8EncodeChar c = b :: tb := by
      cases henc : utf8EncodeChar c with
      | nil => exact absurd henc (utf8EncodeChar_ne_nil c)
      | cons b tb => exact ⟨b, tb, rfl⟩
    have hL : ((c :: cs).map utf8EncodeChar).flatten ++ bs
        = utf8EncodeChar c ++ ((cs.map utf8EncodeChar).flatten ++ bs) := by
      simp [List.append_assoc]
    have hfuel : fuel + (c :: cs).length = (fuel + cs.length) + 1 := by
      simp only [List.length_cons]
      omega
    rw [hL, hfuel, hb, List.cons_append, utf8DecodeLoop, ← List.cons_append, ← hb,
      utf8DecodeChar_encodeChar]
    simp only [Option.some_bind]
    rw [ih, Char.ofNat_toNat]
    cases utf8DecodeLoop fuel bs <;> simp

/-- Claim C5: `extract_text_from_txt` round-trips — extracting a file whose bytes are the UTF-8 encoding of a text returns exactly that text — and on any byte sequence that is not valid UTF-8 it returns (without raising) a string containing `Error reading TXT`. -/
theorem extract_txt_roundtrip :
    (∀ t : String, extract_text_from_txt (utf8Encode t) = t) ∧
    (∀ bs : List Nat, utf8Decode bs = none →
      ∃ pre post : String, extract_text_from_txt bs = pre ++ "Error reading TXT" ++ post) := by
  constructor
  · intro t
    have hdec : utf8Decode (utf8Encode t) = some t.data := by
      rw [utf8Decode, utf8Encode]
      have hlen : ((t.data.map utf8EncodeChar).flatten).length
          = (((t.data.map utf8EncodeChar).flatten).length - t.data.length) + t.data.length := by
        have := length_le_encode_length t.data
        omega
      rw [hlen, ← List.append_nil ((t.data.map utf8EncodeChar).flatten),
        utf8DecodeLoop_encode t.data _ []]
      simp [utf8DecodeLoop]
    simp only [extract_text_from_txt, hdec]
  · intro bs hnone
    refine ⟨"", ": invalid UTF-8 byte sequence", ?_⟩
    simp only [extract_text_from_txt, hnone]
    rfl

/-- Witness for claim C5 at the text `héllo` and the invalid byte sequence `[255]`. -/
theorem extract_txt_roundtrip_witness :
    extract_text_from_txt (utf8Encode "héllo") = "héllo" ∧
    utf8Decode [255] = none ∧
    (∃ pre post : String, extract_text_from_txt [255] = pre ++ "Error reading TXT" ++ post) :=
  ⟨extract_txt_roundtrip.1 "héllo", by decide, extract_txt_roundtrip.2 [255] (by decide)⟩

end AgenticRag
